import Mathlib

/-!
Verification of the talent-promo backend: a shallow embedding of the
research-agent router (src/apps/api/routers/research_agent.py), the research
workflow (src/temporal/workflows/research_workflow.py), the settings model
(src/apps/api/config.py), the in-memory workflow-state router
(src/apps/api/routers/workflow.py) and the PII scrubber
(src/apps/api/routers/privacy.py), together with theorems about them.

External collaborators (the Temporal engine, the OpenAI agent runner, the
HTTP framework) are modelled as oracles passed in as arguments; the code of
this repository is translated line by line.
-/

namespace TalentPromo

/-- An exception raised to the HTTP framework (fastapi.HTTPException). -/
structure HTTPException where
  status_code : Nat
  detail : String
  deriving Repr, DecidableEq

namespace Workflows

/-- Input for the research workflow (class ResearchRequest in
src/temporal/workflows/research_workflow.py). -/
structure ResearchRequest where
  job_title : String
  job_url : Option String
  deriving Repr, DecidableEq

/-- Structured research output (fields of class ResearchResult in
research_workflow.py), as raw data before pydantic validation. -/
structure ResearchResult where
  role_summary : String
  requirements : List String
  skills : List String
  company_context : Option String
  deriving Repr, DecidableEq

/-- Pydantic validation of ResearchResult: the requirements and skills list
fields are declared with min_length=1 and max_length=15; construction of a
model instance fails (raises ValidationError) when a bound is violated. -/
def ResearchResult.model_validate (r : ResearchResult) : Option ResearchResult :=
  if 1 ≤ r.requirements.length ∧ r.requirements.length ≤ 15
      ∧ 1 ≤ r.skills.length ∧ r.skills.length ≤ 15 then
    some r
  else
    none

/-- Token usage attached to one raw model response (response.usage). -/
structure Usage where
  input_tokens : Nat
  output_tokens : Nat
  deriving Repr, DecidableEq

/-- The usage dict built by ResearchWorkflow.run, with its three fixed keys
prompt_tokens, completion_tokens and total_tokens. -/
structure UsageInfo where
  prompt_tokens : Nat
  completion_tokens : Nat
  total_tokens : Nat
  deriving Repr, DecidableEq

/-- Complete workflow result with metadata (class ResearchWorkflowResult). -/
structure ResearchWorkflowResult where
  job_title : String
  job_url : Option String
  result : ResearchResult
  usage : UsageInfo
  deriving Repr, DecidableEq

/-- Result of Runner.run: the final structured output and the raw model
responses, each optionally carrying usage data (response.usage is None when
the response reports no usage). -/
structure AgentRunResult where
  final_output : ResearchResult
  raw_responses : List (Option Usage)

/-- The research input string built by ResearchWorkflow.run. Mirrors the
Python exactly, including the truthiness test `if request.job_url:` under
which both None and the empty string take the else branch. -/
def buildResearchInput (request : ResearchRequest) : String :=
  let research_input := "Job Title: " ++ request.job_title
  match request.job_url with
  | some url =>
      if url = "" then
        research_input ++ "\n\nPlease research this role and provide typical requirements and skills."
      else
        research_input ++ "\nJob URL: " ++ url
          ++ "\n\nPlease analyze this job posting and extract the key information."
  | none =>
      research_input ++ "\n\nPlease research this role and provide typical requirements and skills."

/-- The usage-summation loop of ResearchWorkflow.run: fold over the raw
responses accumulating (total_input_tokens, total_output_tokens), skipping
responses whose usage is None. -/
def sumUsage (raw_responses : List (Option Usage)) : Nat × Nat :=
  raw_responses.foldl
    (fun acc o =>
      match o with
      | some u => (acc.1 + u.input_tokens, acc.2 + u.output_tokens)
      | none => acc)
    (0, 0)

/-- ResearchWorkflow.run: builds the research input, runs the agent (the
runner oracle stands for Runner.run), extracts the structured output and sums
usage over the raw responses. -/
def ResearchWorkflow.run (request : ResearchRequest)
    (runner : String → AgentRunResult) : ResearchWorkflowResult :=
  let research_input := buildResearchInput request
  let result := runner research_input
  let research_output := result.final_output
  let totals := sumUsage result.raw_responses
  { job_title := request.job_title
    job_url := request.job_url
    result := research_output
    usage := { prompt_tokens := totals.1
               completion_tokens := totals.2
               total_tokens := totals.1 + totals.2 } }

end Workflows

namespace Router

/-- Request body of POST /api/research-agent/analyze (class ResearchRequest
in research_agent.py). -/
structure ResearchRequest where
  job_title : String
  job_url : Option String
  deriving Repr, DecidableEq

/-- FastAPI/pydantic validation of the request body: job_title is declared
with min_length=1 and max_length=50, job_url with max_length=1000. -/
def ResearchRequest.valid (r : ResearchRequest) : Bool :=
  1 ≤ r.job_title.length && r.job_title.length ≤ 50 &&
    (match r.job_url with
     | some url => url.length ≤ 1000
     | none => true)

/-- Response of the analyze endpoint (class ResearchResponse). -/
structure ResearchResponse where
  request_id : String
  workflow_id : String
  job_title : String
  job_url : Option String
  status : String
  deriving Repr, DecidableEq

/-- Response of the status endpoint (class ResearchStatusResponse), with the
same field defaults as the pydantic model. -/
structure ResearchStatusResponse where
  request_id : String
  workflow_id : String
  job_title : String
  job_url : Option String := none
  status : String
  result : Option Workflows.ResearchResult := none
  usage : Option Workflows.UsageInfo := none
  error : Option String := none
  deriving Repr, DecidableEq

/-- One client.start_workflow interaction issued to the engine: the workflow
id, the task queue named in the call, and the payload passed. -/
structure StartCall where
  workflow_id : String
  task_queue : String
  request : Workflows.ResearchRequest
  deriving Repr, DecidableEq

/-- Outcome of a client.start_workflow call: success, or an exception
carrying a message. -/
inductive StartOutcome where
  | ok
  | exn (msg : String)
  deriving Repr, DecidableEq

/-- Body of analyze_role after the framework has validated the request: get
the client (connect is the outcome of get_temporal_client, an exception when
the engine is unreachable), start the workflow on the hard-coded task queue
"research-task-queue", and return immediately with status "running"; any
exception becomes a 500. Returns the response together with the list of
start calls issued. -/
def analyze_role (request : ResearchRequest) (request_id : String)
    (connect : Except String Unit) (start : StartCall → StartOutcome) :
    Except HTTPException ResearchResponse × List StartCall :=
  let workflow_id := "research-" ++ request_id
  match connect with
  | .error e =>
      (.error ⟨500, "Failed to start research workflow: " ++ e⟩, [])
  | .ok _ =>
      let call : StartCall :=
        ⟨workflow_id, "research-task-queue", ⟨request.job_title, request.job_url⟩⟩
      match start call with
      | .ok =>
          (.ok ⟨request_id, workflow_id, request.job_title, request.job_url, "running"⟩,
            [call])
      | .exn e =>
          (.error ⟨500, "Failed to start research workflow: " ++ e⟩, [call])

/-- POST /api/research-agent/analyze as served by FastAPI: the body is first
validated against the ResearchRequest model (a 422 validation error is
returned and the handler never runs when it fails), then analyze_role runs. -/
def handleAnalyze (body : ResearchRequest) (request_id : String)
    (connect : Except String Unit) (start : StartCall → StartOutcome) :
    Except HTTPException ResearchResponse × List StartCall :=
  if body.valid then analyze_role body request_id connect start
  else (.error ⟨422, "validation error"⟩, [])

/-- Outcome of describing the workflow: either connect/get handle/describe
raised (also the case for an identifier unknown to the engine), or a status
name was reported (description.status.name, "UNKNOWN" when status is None). -/
inductive DescribeOutcome where
  | exn (msg : String)
  | name (status_name : String)
  deriving Repr, DecidableEq

/-- Outcome of handle.result(): the raw deserialized payload, or an exception
carrying a message (value discarded, network failure, ...). -/
inductive FetchOutcome where
  | ok (raw : Workflows.ResearchWorkflowResult)
  | exn (msg : String)
  deriving Repr, DecidableEq

/-- GET /api/research-agent/status/{workflow_id}: describe the workflow and
map the engine state; on COMPLETED fetch the result, whose deserialization
re-runs pydantic validation of the nested ResearchResult (a validation
failure there raises inside handle.result() and is caught by the inner
except, yielding the degraded completed response). -/
def get_workflow_status (workflow_id : String)
    (describe : DescribeOutcome) (fetch : FetchOutcome) :
    Except HTTPException ResearchStatusResponse :=
  let request_id := workflow_id.replace "research-" ""
  match describe with
  | .exn e => .error ⟨404, "Workflow not found or error: " ++ e⟩
  | .name status_name =>
      if status_name = "COMPLETED" then
        match fetch with
        | .ok raw =>
            match raw.result.model_validate with
            | some research_result =>
                .ok { request_id := request_id
                      workflow_id := workflow_id
                      job_title := raw.job_title
                      job_url := raw.job_url
                      status := "completed"
                      result := some research_result
                      usage := some raw.usage }
            | none =>
                .ok { request_id := request_id
                      workflow_id := workflow_id
                      job_title := "[Completed]"
                      status := "completed"
                      error := some "Failed to retrieve result: validation error for ResearchResult" }
        | .exn e =>
            .ok { request_id := request_id
                  workflow_id := workflow_id
                  job_title := "[Completed]"
                  status := "completed"
                  error := some ("Failed to retrieve result: " ++ e) }
      else if status_name = "RUNNING" then
        .ok { request_id := request_id
              workflow_id := workflow_id
              job_title := "[In Progress]"
              status := "running" }
      else
        .ok { request_id := request_id
              workflow_id := workflow_id
              job_title := "[Failed]"
              status := "failed"
              error := some ("Workflow status: " ++ status_name) }

end Router

namespace Config

/-- Application settings (class Settings in src/apps/api/config.py). These
are exactly the fields the pydantic-settings model declares; the model is
configured with extra="ignore", so unknown environment keys are dropped
rather than becoming attributes. -/
structure Settings where
  openai_api_key : String
  openai_model : String := "gpt-5-mini"
  openai_timeout : Int := 60
  log_level : String := "INFO"
  deriving Repr, DecidableEq

/-- A value a Settings attribute lookup can yield. -/
inductive SettingsValue where
  | str (s : String)
  | int (i : Int)
  deriving Repr, DecidableEq

/-- Python attribute lookup on a Settings instance: the four declared fields
resolve to their values; any other attribute name raises AttributeError,
modelled as none. -/
def Settings.getattr (s : Settings) (attr : String) : Option SettingsValue :=
  if attr = "openai_api_key" then some (.str s.openai_api_key)
  else if attr = "openai_model" then some (.str s.openai_model)
  else if attr = "openai_timeout" then some (.int s.openai_timeout)
  else if attr = "log_level" then some (.str s.log_level)
  else none

/-- The task-queue attribute read by run_worker in src/temporal/worker.py
(settings.temporal_task_queue). -/
def run_worker_task_queue (s : Settings) : Option SettingsValue :=
  s.getattr "temporal_task_queue"

/-- The engine address attribute read both by run_worker and by
get_temporal_client in the router (settings.temporal_address). -/
def client_connect_address (s : Settings) : Option SettingsValue :=
  s.getattr "temporal_address"

/-- The engine namespace attribute read both by run_worker and by
get_temporal_client in the router (settings.temporal_namespace). -/
def client_connect_namespace (s : Settings) : Option SettingsValue :=
  s.getattr "temporal_namespace"

end Config

namespace WorkflowRouter

/-- Per-run state held in the in-memory workflow_states dict of
src/apps/api/routers/workflow.py. Edits are opaque JSON dicts the router
never inspects, so their type is a parameter. -/
structure WFState (Edit : Type) where
  status : String
  edits : List Edit
  suggestions_resolved : List String

/-- The in-memory store: the workflow_states dict keyed by run_id. -/
def Store (Edit : Type) := String → Option (WFState Edit)

/-- Request body of POST /api/workflow/submit_edits. -/
structure SubmitEditsRequest (Edit : Type) where
  run_id : String
  edits : List Edit

/-- Request body of POST /api/workflow/resolve_suggestions. -/
structure ResolveSuggestionsRequest where
  run_id : String
  suggestion_ids : List String

/-- Request body of POST /api/workflow/approve. -/
structure ApproveRequest where
  run_id : String

/-- Response dict of submit_edits. -/
structure SubmitEditsResponse where
  success : Bool
  run_id : String
  status : String
  message : String
  deriving Repr, DecidableEq

/-- Response dict of resolve_suggestions. -/
structure ResolveSuggestionsResponse where
  success : Bool
  run_id : String
  resolved_count : Nat
  message : String
  deriving Repr, DecidableEq

/-- Response dict of approve. -/
structure ApproveResponse where
  success : Bool
  run_id : String
  status : String
  message : String
  deriving Repr, DecidableEq

/-- Response dict of the status query. -/
structure WFStatusResponse where
  run_id : String
  status : String
  edits_count : Nat
  suggestions_resolved : Nat
  deriving Repr, DecidableEq

/-- POST /api/workflow/submit_edits: create a fresh waiting state when the
run_id is absent, then append the submitted edits and set the status to
"validating". Never raises. Returns the response and the updated store. -/
def submit_edits {Edit : Type} (states : Store Edit)
    (request : SubmitEditsRequest Edit) :
    Except HTTPException SubmitEditsResponse × Store Edit :=
  let run_id := request.run_id
  let st : WFState Edit :=
    match states run_id with
    | none => { status := "waiting", edits := [], suggestions_resolved := [] }
    | some s => s
  let st' : WFState Edit :=
    { st with edits := st.edits ++ request.edits, status := "validating" }
  (.ok { success := true
         run_id := run_id
         status := "validating"
         message := "Edits submitted for validation" },
    fun k => if k = run_id then some st' else states k)

/-- POST /api/workflow/resolve_suggestions: 404 when the run_id is absent;
otherwise extend suggestions_resolved and set the status to "processing". -/
def resolve_suggestions {Edit : Type} (states : Store Edit)
    (request : ResolveSuggestionsRequest) :
    Except HTTPException ResolveSuggestionsResponse × Store Edit :=
  let run_id := request.run_id
  match states run_id with
  | none => (.error ⟨404, "Workflow run not found"⟩, states)
  | some st =>
      let st' : WFState Edit :=
        { st with
            suggestions_resolved := st.suggestions_resolved ++ request.suggestion_ids
            status := "processing" }
      (.ok { success := true
             run_id := run_id
             resolved_count := request.suggestion_ids.length
             message := "Suggestions resolved" },
        fun k => if k = run_id then some st' else states k)

/-- POST /api/workflow/approve: 404 when the run_id is absent; otherwise set
the status to "approved". -/
def approve {Edit : Type} (states : Store Edit) (request : ApproveRequest) :
    Except HTTPException ApproveResponse × Store Edit :=
  let run_id := request.run_id
  match states run_id with
  | none => (.error ⟨404, "Workflow run not found"⟩, states)
  | some st =>
      let st' : WFState Edit := { st with status := "approved" }
      (.ok { success := true
             run_id := run_id
             status := "approved"
             message := "Document approved and exported" },
        fun k => if k = run_id then some st' else states k)

/-- GET /api/workflow/status/{run_id}: 404 when the run_id is absent;
otherwise report the status and the counters. Reads only. -/
def get_status {Edit : Type} (states : Store Edit) (run_id : String) :
    Except HTTPException WFStatusResponse :=
  match states run_id with
  | none => .error ⟨404, "Workflow run not found"⟩
  | some st =>
      .ok { run_id := run_id
            status := st.status
            edits_count := st.edits.length
            suggestions_resolved := st.suggestions_resolved.length }

end WorkflowRouter

namespace Privacy

/-!
Embedding of scrub_pii (src/apps/api/routers/privacy.py): four re.sub
passes over the text, in source order EMAIL, PHONE, SSN, CREDIT_CARD, each
replacing every leftmost non-overlapping match by "[REDACTED]".

Text is a list of characters. The re module's semantics are modelled as
follows, with the character classes in their ASCII reading:
- the word-boundary assertion holds between two positions of different
  word-ness, where positions beyond either end of the string are non-word;
- re.sub scans left to right; after a match it resumes at the match end,
  and lookaround context (the character left of a position) always comes
  from the string being scanned, not from the replacement;
- at a given position the engine returns the first match in backtracking
  order. For each of the four patterns this is the longest candidate
  length whose body parses and whose two end boundaries hold: the numeric
  patterns admit at most one valid candidate per position because a
  separator character can never double as a digit, and for the EMAIL
  pattern a longer domain always dominates (a candidate using an earlier
  dot cannot reach past the later dot, since a dot may not occur in the
  TLD part), so the preference order of the engine coincides with
  longest-first.
-/

/-- Word characters of the \b assertion (ASCII reading of \w). -/
def isWordCharB (c : Char) : Bool := c.isAlphanum || c = '_'

/-- ASCII reading of \d. -/
def isDigitB (c : Char) : Bool := c.isDigit

/-- Word-ness of an optional flanking character; the edge of the string
counts as non-word. -/
def wOpt : Option Char → Bool
  | some c => isWordCharB c
  | none => false

/-- The local-part class [A-Za-z0-9._%+-] of EMAIL. -/
def localCB (c : Char) : Bool :=
  c.isAlphanum || c = '.' || c = '_' || c = '%' || c = '+' || c = '-'

/-- The domain class [A-Za-z0-9.-] of EMAIL. -/
def domainCB (c : Char) : Bool := c.isAlphanum || c = '.' || c = '-'

/-- The TLD class [A-Z|a-z] of EMAIL: letters and, as written in the
source pattern, the literal bar. -/
def tldCB (c : Char) : Bool := c.isAlpha || c = '|'

/-- The separator class [-.] of PHONE. -/
def phoneSepB (c : Char) : Bool := c = '-' || c = '.'

/-- ASCII reading of \s. -/
def spaceB (c : Char) : Bool :=
  c = ' ' || c = '\t' || c = '\n' || c = '\r' || c = '\x0b' || c = '\x0c'

/-- The separator class [-\s] of CREDIT_CARD. -/
def ccSepB (c : Char) : Bool := c = '-' || spaceB c

/-- Literal-character classes used by the patterns. -/
def dashB (c : Char) : Bool := c = '-'

/-- The at-sign, the literal between local part and domain of EMAIL. -/
def atB (c : Char) : Bool := c = '@'

/-- The dot preceding the TLD of EMAIL. -/
def dotB (c : Char) : Bool := c = '.'

/-- All n characters of m starting at offset i are digits. -/
def seg (m : List Char) (i n : Nat) : Bool :=
  ((m.drop i).take n).all isDigitB

/-- The character of m at offset i exists and satisfies p. -/
def sepAt (p : Char → Bool) (m : List Char) (i : Nat) : Bool :=
  match m[i]? with
  | some c => p c
  | none => false

/-- The PHONE pattern body \d{3}[-.]?\d{3}[-.]?\d{4}: by total length,
which separators are present and where every digit sits is determined. -/
def phoneBody (m : List Char) : Bool :=
  (decide (m.length = 10) && seg m 0 10) ||
  (decide (m.length = 11) &&
    ((seg m 0 3 && sepAt phoneSepB m 3 && seg m 4 7) ||
     (seg m 0 6 && sepAt phoneSepB m 6 && seg m 7 4))) ||
  (decide (m.length = 12) && seg m 0 3 && sepAt phoneSepB m 3 && seg m 4 3 &&
    sepAt phoneSepB m 7 && seg m 8 4)

/-- The SSN pattern body \d{3}-\d{2}-\d{4}. -/
def ssnBody (m : List Char) : Bool :=
  decide (m.length = 11) && seg m 0 3 && sepAt dashB m 3 && seg m 4 2 &&
    sepAt dashB m 6 && seg m 7 4

/-- The CREDIT_CARD pattern body \d{4}[-\s]?\d{4}[-\s]?\d{4}[-\s]?\d{4}:
by total length and which of the three separators are present. -/
def ccBody (m : List Char) : Bool :=
  (decide (m.length = 16) && seg m 0 16) ||
  (decide (m.length = 17) &&
    ((seg m 0 4 && sepAt ccSepB m 4 && seg m 5 12) ||
     (seg m 0 8 && sepAt ccSepB m 8 && seg m 9 8) ||
     (seg m 0 12 && sepAt ccSepB m 12 && seg m 13 4))) ||
  (decide (m.length = 18) &&
    ((seg m 0 4 && sepAt ccSepB m 4 && seg m 5 4 && sepAt ccSepB m 9 && seg m 10 8) ||
     (seg m 0 4 && sepAt ccSepB m 4 && seg m 5 8 && sepAt ccSepB m 13 && seg m 14 4) ||
     (seg m 0 8 && sepAt ccSepB m 8 && seg m 9 4 && sepAt ccSepB m 13 && seg m 14 4))) ||
  (decide (m.length = 19) && seg m 0 4 && sepAt ccSepB m 4 && seg m 5 4 &&
    sepAt ccSepB m 9 && seg m 10 4 && sepAt ccSepB m 14 && seg m 15 4)

/-- The EMAIL pattern body [A-Za-z0-9._%+-]+ at-sign [A-Za-z0-9.-]+ dot
[A-Z|a-z]{2,}, parsed over the whole of m: the local part is the maximal
class run (it must be followed by the at-sign both in m and in the regex,
as the at-sign is outside the class), then some dot position k splits the
remainder into a non-empty domain run and a TLD of length at least two
covering the rest of m. -/
def emailBody (m : List Char) : Bool :=
  let l := (m.takeWhile localCB).length
  decide (1 ≤ l) && sepAt atB m l &&
    (let rest := m.drop (l + 1)
     (List.range rest.length).any fun k =>
       decide (1 ≤ k) && (rest.take k).all domainCB && sepAt dotB rest k &&
         (decide (2 ≤ (rest.drop (k + 1)).length) && (rest.drop (k + 1)).all tldCB))

/-- One candidate match of a pattern body at the head of cs: the length L
is positive and fits, the body accepts the first L characters, and the \b
boundary holds on both sides (pw is the word-ness of the character before
the position, cs[L]? the character after the match). -/
def matchOK (body : List Char → Bool) (pw : Bool) (cs : List Char) (L : Nat) : Bool :=
  decide (1 ≤ L) && decide (L ≤ cs.length) && body (cs.take L) &&
    (pw != wOpt cs.head?) && (wOpt cs[L - 1]? != wOpt cs[L]?)

/-- The match attempt of the engine at the head of cs: the longest
candidate length accepted by matchOK (see the module comment for why
longest-first agrees with the engine's backtracking preference). -/
def genMatch (body : List Char → Bool) (pw : Bool) (cs : List Char) : Option Nat :=
  (List.range (cs.length + 1)).reverse.find? (matchOK body pw cs)

/-- The replacement text. -/
def RED : List Char := ['[', 'R', 'E', 'D', 'A', 'C', 'T', 'E', 'D', ']']

/-- One re.sub pass: scan left to right from the head; on a match of
length L emit the replacement and resume after the match, with the word
context of the resume position taken from the scanned string itself; on
failure keep one character and move on. pw is the word-ness of the
character preceding the current position (false at the start of the
string). -/
def reSub (body : List Char → Bool) (pw : Bool) (cs : List Char) : List Char :=
  match cs with
  | [] => []
  | c :: rest =>
      match genMatch body pw (c :: rest) with
      | some L =>
          RED ++ reSub body (wOpt (c :: rest)[L - 1]?) ((c :: rest).drop (max L 1))
      | none => c :: reSub body (isWordCharB c) rest
termination_by cs.length
decreasing_by
  all_goals simp [List.length_drop]

/-- scrub_pii at the default replacement "[REDACTED]": the four re.sub
passes in source order (EMAIL, PHONE, SSN, CREDIT_CARD). -/
def scrub_pii (text : List Char) : List Char :=
  reSub ccBody false (reSub ssnBody false (reSub phoneBody false (reSub emailBody false text)))

/-- String-level scrub_pii. -/
def scrub_pii_str (text : String) : String :=
  (scrub_pii text.toList).asString

/-- The word-ness of the character just before position i of cs, where pw
is the word-ness of the character before cs itself. -/
def wBefore (pw : Bool) (cs : List Char) (i : Nat) : Bool :=
  match i with
  | 0 => pw
  | j + 1 => wOpt cs[j]?

/-- A body occurrence at position i with length L, flanked by \b
boundaries on both sides. -/
def shapeAt (body : List Char → Bool) (pw : Bool) (cs : List Char) (i L : Nat) : Prop :=
  1 ≤ L ∧ i + L ≤ cs.length ∧ body ((cs.drop i).take L) = true ∧
    wBefore pw cs i ≠ wOpt cs[i]? ∧ wOpt cs[i + L - 1]? ≠ wOpt cs[i + L]?

/-- Some body occurrence with boundaries exists somewhere in cs. -/
def HasShape (body : List Char → Bool) (pw : Bool) (cs : List Char) : Prop :=
  ∃ i L, shapeAt body pw cs i L

end Privacy

/-! ## Theorems -/

/-- C1: for a status poll, engine state "RUNNING" yields API status "running" with no
result attached; "COMPLETED" with a successful result fetch yields "completed" with the
result and usage counters; "COMPLETED" with a failing result fetch yields "completed" with
no result and an explanatory error message; any other engine state yields "failed" with
the raw engine-state name in the error detail; and an identifier unknown to the engine
(describe raises) yields a 404 not-found error. -/
theorem status_endpoint_state_mapping (wid : String) (fetch : Router.FetchOutcome)
    (raw : Workflows.ResearchWorkflowResult) (vr : Workflows.ResearchResult)
    (e nm : String)
    (hval : raw.result.model_validate = some vr)
    (hc : nm ≠ "COMPLETED") (hr : nm ≠ "RUNNING") :
    Router.get_workflow_status wid (.name "RUNNING") fetch =
      .ok { request_id := wid.replace "research-" "", workflow_id := wid,
            job_title := "[In Progress]", status := "running" }
  ∧ Router.get_workflow_status wid (.name "COMPLETED") (.ok raw) =
      .ok { request_id := wid.replace "research-" "", workflow_id := wid,
            job_title := raw.job_title, job_url := raw.job_url,
            status := "completed", result := some vr, usage := some raw.usage }
  ∧ Router.get_workflow_status wid (.name "COMPLETED") (.exn e) =
      .ok { request_id := wid.replace "research-" "", workflow_id := wid,
            job_title := "[Completed]", status := "completed",
            error := some ("Failed to retrieve result: " ++ e) }
  ∧ Router.get_workflow_status wid (.name nm) fetch =
      .ok { request_id := wid.replace "research-" "", workflow_id := wid,
            job_title := "[Failed]", status := "failed",
            error := some ("Workflow status: " ++ nm) }
  ∧ Router.get_workflow_status wid (.exn e) fetch =
      .error ⟨404, "Workflow not found or error: " ++ e⟩ := by
  refine ⟨?_, ?_, ?_, ?_, ?_⟩ <;>
    simp [Router.get_workflow_status, hval, hc, hr]

/-- Witness for status_endpoint_state_mapping at concrete inputs. -/
theorem status_endpoint_state_mapping_witness :
    (Workflows.ResearchResult.model_validate ⟨"s", ["r"], ["k"], none⟩ =
        some ⟨"s", ["r"], ["k"], none⟩)
    ∧ ("CANCELED" : String) ≠ "COMPLETED"
    ∧ ("CANCELED" : String) ≠ "RUNNING"
    ∧ (Router.get_workflow_status "research-abc" (.name "RUNNING") (.exn "x") =
        .ok { request_id := "research-abc".replace "research-" "",
              workflow_id := "research-abc",
              job_title := "[In Progress]", status := "running" }
      ∧ Router.get_workflow_status "research-abc" (.name "COMPLETED")
          (.ok ⟨"Data Scientist", none, ⟨"s", ["r"], ["k"], none⟩, ⟨1, 2, 3⟩⟩) =
        .ok { request_id := "research-abc".replace "research-" "",
              workflow_id := "research-abc",
              job_title := "Data Scientist", job_url := none,
              status := "completed", result := some ⟨"s", ["r"], ["k"], none⟩,
              usage := some ⟨1, 2, 3⟩ }
      ∧ Router.get_workflow_status "research-abc" (.name "COMPLETED") (.exn "boom") =
        .ok { request_id := "research-abc".replace "research-" "",
              workflow_id := "research-abc",
              job_title := "[Completed]", status := "completed",
              error := some ("Failed to retrieve result: " ++ "boom") }
      ∧ Router.get_workflow_status "research-abc" (.name "CANCELED") (.exn "x") =
        .ok { request_id := "research-abc".replace "research-" "",
              workflow_id := "research-abc",
              job_title := "[Failed]", status := "failed",
              error := some ("Workflow status: " ++ "CANCELED") }
      ∧ Router.get_workflow_status "research-abc" (.exn "boom") (.exn "x") =
        .error ⟨404, "Workflow not found or error: " ++ "boom"⟩) :=
  ⟨by decide, by decide, by decide,
    status_endpoint_state_mapping "research-abc" (.exn "x")
      ⟨"Data Scientist", none, ⟨"s", ["r"], ["k"], none⟩, ⟨1, 2, 3⟩⟩
      ⟨"s", ["r"], ["k"], none⟩ "boom" "CANCELED"
      (by decide) (by decide) (by decide)⟩

/-- C2: a submission whose title is empty or longer than 50 characters, or whose URL is
present and longer than 1000 characters, is rejected with a 422 validation error by the
framework before the handler runs, so no engine interaction happens and no workflow is
started (the start-call list is empty, whatever the engine oracles are). -/
theorem submission_validation_rejected_before_engine (body : Router.ResearchRequest)
    (request_id : String) (connect : Except String Unit)
    (start : Router.StartCall → Router.StartOutcome)
    (h : body.job_title.length = 0 ∨ 50 < body.job_title.length ∨
        ∃ url, body.job_url = some url ∧ 1000 < url.length) :
    Router.handleAnalyze body request_id connect start =
      (.error ⟨422, "validation error"⟩, []) := by
  have hv : ¬ (body.valid = true) := by
    simp only [Router.ResearchRequest.valid, Bool.and_eq_true, decide_eq_true_eq]
    rintro ⟨⟨h1, h2⟩, h3⟩
    rcases h with h | h | ⟨url, hu, hl⟩
    · omega
    · omega
    · rw [hu] at h3
      simp only [decide_eq_true_eq] at h3
      omega
  unfold Router.handleAnalyze
  rw [if_neg hv]

/-- Witness for submission_validation_rejected_before_engine at an empty title. -/
theorem submission_validation_rejected_witness :
    (("" : String).length = 0 ∨ 50 < ("" : String).length ∨
      ∃ url, (none : Option String) = some url ∧ 1000 < url.length)
    ∧ Router.handleAnalyze ⟨"", none⟩ "rid" (.ok ()) (fun _ => .ok) =
        (.error ⟨422, "validation error"⟩, []) :=
  ⟨Or.inl rfl,
    submission_validation_rejected_before_engine ⟨"", none⟩ "rid" (.ok ())
      (fun _ => .ok) (Or.inl rfl)⟩

/-- C3: for a valid body whose engine start call succeeds, the submission endpoint
responds with the echoed job_title and job_url (none when absent), status "running", the
request identifier, and the workflow identifier "research-" ++ request identifier; the
response carries no agent result, as the handler does not wait for completion. -/
theorem submission_success_response (body : Router.ResearchRequest) (request_id : String)
    (start : Router.StartCall → Router.StartOutcome)
    (hv : body.valid = true)
    (hs : start ⟨"research-" ++ request_id, "research-task-queue",
            ⟨body.job_title, body.job_url⟩⟩ = .ok) :
    (Router.handleAnalyze body request_id (.ok ()) start).1 =
      .ok { request_id := request_id
            workflow_id := "research-" ++ request_id
            job_title := body.job_title
            job_url := body.job_url
            status := "running" } := by
  unfold Router.handleAnalyze Router.analyze_role
  rw [if_pos hv]
  simp [hs]

/-- Witness for submission_success_response at a concrete valid request. -/
theorem submission_success_response_witness :
    ((⟨"Data Scientist", none⟩ : Router.ResearchRequest).valid = true)
    ∧ ((fun _ => Router.StartOutcome.ok)
        (⟨"research-" ++ "rid", "research-task-queue",
          ⟨"Data Scientist", none⟩⟩ : Router.StartCall) = .ok)
    ∧ (Router.handleAnalyze ⟨"Data Scientist", none⟩ "rid" (.ok ())
        (fun _ => .ok)).1 =
      .ok { request_id := "rid"
            workflow_id := "research-" ++ "rid"
            job_title := "Data Scientist"
            job_url := none
            status := "running" } :=
  ⟨by decide, rfl,
    submission_success_response ⟨"Data Scientist", none⟩ "rid" (fun _ => .ok)
      (by decide) rfl⟩

/-- C4 as stated is false: an engine failure (connection or describe) during a status
poll is surfaced as a 404 client error, not as a server error. -/
theorem status_engine_failure_not_server_error :
    Router.get_workflow_status "research-abc" (.exn "connection refused") (.exn "") =
      .error ⟨404, "Workflow not found or error: connection refused"⟩
    ∧ ¬ (500 ≤ (404 : Nat)) :=
  ⟨rfl, by decide⟩

/-- C4 amended: an engine failure during the submission endpoint (connection or start)
is surfaced as a 500 server error carrying the underlying message, while an engine
failure during the status endpoint (connection, handle or describe) is surfaced as a 404
not-found error carrying the underlying message; in both cases the API layer performs no
retry of its own (the submission endpoint issues at most one start call). -/
theorem engine_failure_surfaced_without_retry (body : Router.ResearchRequest)
    (request_id e wid : String) (start : Router.StartCall → Router.StartOutcome)
    (fetch : Router.FetchOutcome)
    (hv : body.valid = true) :
    ((Router.handleAnalyze body request_id (.error e) start).1 =
        .error ⟨500, "Failed to start research workflow: " ++ e⟩)
    ∧ ((∀ c, start c = .exn e) →
        (Router.handleAnalyze body request_id (.ok ()) start).1 =
          .error ⟨500, "Failed to start research workflow: " ++ e⟩)
    ∧ (∀ connect, (Router.handleAnalyze body request_id connect start).2.length ≤ 1)
    ∧ (Router.get_workflow_status wid (.exn e) fetch =
        .error ⟨404, "Workflow not found or error: " ++ e⟩) := by
  refine ⟨?_, ?_, ?_, ?_⟩
  · unfold Router.handleAnalyze Router.analyze_role
    rw [if_pos hv]
  · intro hall
    unfold Router.handleAnalyze Router.analyze_role
    rw [if_pos hv]
    simp [hall]
  · intro connect
    cases connect with
    | error e' => simp [Router.handleAnalyze, Router.analyze_role, hv]
    | ok u =>
        rcases hstart : start ⟨"research-" ++ request_id, "research-task-queue",
            ⟨body.job_title, body.job_url⟩⟩ with _ | msg <;>
          simp [Router.handleAnalyze, Router.analyze_role, hv, hstart]
  · rfl

/-- Witness for engine_failure_surfaced_without_retry at concrete inputs. -/
theorem engine_failure_surfaced_witness :
    ((⟨"Data Scientist", none⟩ : Router.ResearchRequest).valid = true)
    ∧ ((Router.handleAnalyze ⟨"Data Scientist", none⟩ "rid"
          (.error "conn refused") (fun _ => .exn "conn refused")).1 =
        .error ⟨500, "Failed to start research workflow: " ++ "conn refused"⟩)
    ∧ ((∀ c, (fun _ : Router.StartCall => Router.StartOutcome.exn "conn refused") c =
          .exn "conn refused") →
        (Router.handleAnalyze ⟨"Data Scientist", none⟩ "rid" (.ok ())
          (fun _ => .exn "conn refused")).1 =
          .error ⟨500, "Failed to start research workflow: " ++ "conn refused"⟩)
    ∧ (∀ connect, (Router.handleAnalyze ⟨"Data Scientist", none⟩ "rid" connect
          (fun _ => .exn "conn refused")).2.length ≤ 1)
    ∧ (Router.get_workflow_status "research-abc" (.exn "conn refused") (.exn "") =
        .error ⟨404, "Workflow not found or error: " ++ "conn refused"⟩) :=
  ⟨by decide,
    (engine_failure_surfaced_without_retry ⟨"Data Scientist", none⟩ "rid"
      "conn refused" "research-abc" (fun _ => .exn "conn refused") (.exn "")
      (by decide)).1,
    (engine_failure_surfaced_without_retry ⟨"Data Scientist", none⟩ "rid"
      "conn refused" "research-abc" (fun _ => .exn "conn refused") (.exn "")
      (by decide)).2.1,
    (engine_failure_surfaced_without_retry ⟨"Data Scientist", none⟩ "rid"
      "conn refused" "research-abc" (fun _ => .exn "conn refused") (.exn "")
      (by decide)).2.2.1,
    (engine_failure_surfaced_without_retry ⟨"Data Scientist", none⟩ "rid"
      "conn refused" "research-abc" (fun _ => .exn "conn refused") (.exn "")
      (by decide)).2.2.2⟩

namespace Privacy

/-- genMatch on the empty string never matches. -/
theorem genMatch_nil (body : List Char → Bool) (pw : Bool) :
    genMatch body pw [] = none := rfl

/-- A successful genMatch satisfies matchOK. -/
theorem genMatch_some {body : List Char → Bool} {pw : Bool} {cs : List Char} {L : Nat}
    (h : genMatch body pw cs = some L) : matchOK body pw cs L = true :=
  List.find?_some h

/-- matchOK unfolded into its five conditions. -/
theorem matchOK_iff {body : List Char → Bool} {pw : Bool} {cs : List Char} {L : Nat} :
    matchOK body pw cs L = true ↔
      1 ≤ L ∧ L ≤ cs.length ∧ body (cs.take L) = true ∧
      pw ≠ wOpt cs.head? ∧ wOpt cs[L - 1]? ≠ wOpt cs[L]? := by
  simp [matchOK, Bool.and_eq_true, and_assoc]

/-- A failing genMatch means no candidate length is acceptable. -/
theorem genMatch_none {body : List Char → Bool} {pw : Bool} {cs : List Char}
    (h : genMatch body pw cs = none) (L : Nat) : matchOK body pw cs L = false := by
  by_cases hL : L ≤ cs.length
  · have hm : L ∈ (List.range (cs.length + 1)).reverse := by
      simp only [List.mem_reverse, List.mem_range]
      omega
    have := List.find?_eq_none.mp h L hm
    simpa using this
  · rw [Bool.eq_false_iff]
    intro hc
    exact hL (matchOK_iff.mp hc).2.1

/-- An acceptable candidate length makes genMatch succeed. -/
theorem genMatch_ne_none {body : List Char → Bool} {pw : Bool} {cs : List Char} {L : Nat}
    (h : matchOK body pw cs L = true) : genMatch body pw cs ≠ none := by
  intro hn
  rw [genMatch_none hn L] at h
  cases h

/-- A shape at position i is a matchOK at the suffix starting at i. -/
theorem shapeAt_iff_matchOK {body : List Char → Bool} {pw : Bool} {cs : List Char}
    {i L : Nat} :
    shapeAt body pw cs i L ↔ matchOK body (wBefore pw cs i) (cs.drop i) L = true := by
  rw [matchOK_iff, shapeAt]
  have hdl : (cs.drop i).length = cs.length - i := List.length_drop i cs
  have hhead : (cs.drop i).head? = cs[i]? := by
    rw [List.head?_eq_getElem?, List.getElem?_drop, Nat.add_zero]
  have hL : (cs.drop i)[L]? = cs[i + L]? := List.getElem?_drop cs i L
  constructor
  · rintro ⟨h1, h2, h3, h4, h5⟩
    refine ⟨h1, by omega, h3, by rw [hhead]; exact h4, ?_⟩
    rw [hL, List.getElem?_drop]
    have : i + (L - 1) = i + L - 1 := by omega
    rw [this]
    exact h5
  · rintro ⟨h1, h2, h3, h4, h5⟩
    refine ⟨h1, by omega, h3, by rw [hhead] at h4; exact h4, ?_⟩
    rw [hL, List.getElem?_drop] at h5
    have : i + (L - 1) = i + L - 1 := by omega
    rw [this] at h5
    exact h5

/-- wBefore composes with drop. -/
theorem wBefore_drop (pw : Bool) (cs : List Char) (d i : Nat) :
    wBefore (wBefore pw cs d) (cs.drop d) i = wBefore pw cs (d + i) := by
  cases i with
  | zero => rfl
  | succ j =>
      show wOpt (cs.drop d)[j]? = wBefore pw cs (d + (j + 1))
      rw [List.getElem?_drop]
      have : d + (j + 1) = (d + j) + 1 := by omega
      rw [this]
      rfl

/-- wBefore steps across a cons cell. -/
theorem wBefore_cons (pw : Bool) (c : Char) (rest : List Char) (j : Nat) :
    wBefore (isWordCharB c) rest j = wBefore pw (c :: rest) (j + 1) := by
  cases j with
  | zero => simp [wBefore, wOpt]
  | succ i => simp [wBefore]

/-- Shapes in a suffix are shapes of the whole string at shifted positions. -/
theorem shapeAt_drop {body : List Char → Bool} {pw : Bool} {cs : List Char} {d i L : Nat} :
    shapeAt body (wBefore pw cs d) (cs.drop d) i L ↔ shapeAt body pw cs (d + i) L := by
  rw [shapeAt_iff_matchOK, shapeAt_iff_matchOK, wBefore_drop, List.drop_drop]

/-- Unfolding reSub on the empty string. -/
theorem reSub_nil (body : List Char → Bool) (pw : Bool) : reSub body pw [] = [] := by
  rw [reSub]

/-- Unfolding reSub at a matching head position. -/
theorem reSub_cons_some {body : List Char → Bool} {pw : Bool} {c : Char}
    {rest : List Char} {L : Nat} (hm : genMatch body pw (c :: rest) = some L) :
    reSub body pw (c :: rest) =
      RED ++ reSub body (wOpt (c :: rest)[L - 1]?) ((c :: rest).drop (max L 1)) := by
  rw [reSub, hm]

/-- Unfolding reSub at a non-matching head position. -/
theorem reSub_cons_none {body : List Char → Bool} {pw : Bool} {c : Char}
    {rest : List Char} (hm : genMatch body pw (c :: rest) = none) :
    reSub body pw (c :: rest) = c :: reSub body (isWordCharB c) rest := by
  rw [reSub, hm]

/-- A re.sub pass either leaves the string unchanged because no position
matches, or splits at the first match: positions before it fail, the match
is replaced, and the scan continues after it with the word context of the
last matched character. -/
theorem reSub_cases (body : List Char → Bool) :
    ∀ (cs : List Char) (pw : Bool),
    (reSub body pw cs = cs ∧
      ∀ i, genMatch body (wBefore pw cs i) (cs.drop i) = none)
    ∨ (∃ k L, k + L ≤ cs.length ∧ 1 ≤ L ∧
        (∀ j < k, genMatch body (wBefore pw cs j) (cs.drop j) = none) ∧
        genMatch body (wBefore pw cs k) (cs.drop k) = some L ∧
        reSub body pw cs = cs.take k ++ RED ++
          reSub body (wOpt cs[k + L - 1]?) (cs.drop (k + L))) := by
  intro cs
  induction cs with
  | nil =>
      intro pw
      left
      refine ⟨reSub_nil body pw, fun i => ?_⟩
      rw [List.drop_nil]
      exact genMatch_nil body _
  | cons c rest ih =>
      intro pw
      cases hm : genMatch body pw (c :: rest) with
      | some L =>
          right
          have hok := matchOK_iff.mp (genMatch_some hm)
          refine ⟨0, L, by omega, hok.1, by omega, ?_, ?_⟩
          · show genMatch body pw ((c :: rest).drop 0) = some L
            rw [List.drop_zero]
            exact hm
          · rw [reSub_cons_some hm]
            have hmax : max L 1 = L := by omega
            rw [hmax, List.take_zero, List.nil_append, Nat.zero_add]
      | none =>
          rcases ih (isWordCharB c) with ⟨he, hall⟩ | ⟨k, L, hkL, hL, hfail, hmk, heq⟩
          · left
            constructor
            · rw [reSub_cons_none hm, he]
            · intro i
              cases i with
              | zero => exact hm
              | succ j =>
                  rw [← wBefore_cons pw c rest j]
                  exact hall j
          · right
            refine ⟨k + 1, L, by simpa using by omega, hL, ?_, ?_, ?_⟩
            · intro j hj
              cases j with
              | zero => exact hm
              | succ j' =>
                  rw [← wBefore_cons pw c rest j']
                  exact hfail j' (by omega)
            · rw [← wBefore_cons pw c rest k]
              exact hmk
            · rw [reSub_cons_none hm, heq]
              have h1 : (c :: rest)[k + 1 + L - 1]? = rest[k + L - 1]? := by
                have : k + 1 + L - 1 = (k + L - 1) + 1 := by omega
                rw [this, List.getElem?_cons_succ]
              have h2 : (c :: rest).drop (k + 1 + L) = rest.drop (k + L) := by
                have : k + 1 + L = (k + L) + 1 := by omega
                rw [this, List.drop_succ_cons]
              rw [h1, h2, List.take_succ_cons]
              rfl

/-- Indexing an append on the left part. -/
theorem gel_left {a b : List Char} {j : Nat} (h : j < a.length) :
    (a ++ b)[j]? = a[j]? := by
  rw [List.getElem?_append, if_pos h]

/-- Indexing an append on the right part. -/
theorem gel_right {a b : List Char} {j : Nat} (h : a.length ≤ j) :
    (a ++ b)[j]? = b[j - a.length]? := by
  rw [List.getElem?_append, if_neg (by omega)]

/-- Indexing inside a take. -/
theorem gel_take {cs : List Char} {k j : Nat} (h : j < k) :
    (cs.take k)[j]? = cs[j]? := by
  rw [List.getElem?_take, if_pos h]

/-- Indexing a take-of-drop window. -/
theorem gel_take_drop {x : List Char} {i Lq j : Nat} (h : j < Lq) :
    ((x.drop i).take Lq)[j]? = x[i + j]? := by
  rw [List.getElem?_take, if_pos h, List.getElem?_drop]

/-- Dropping the two scans compose. -/
theorem drop_drop_at (cs : List Char) (d i : Nat) :
    (cs.drop d).drop i = cs.drop (d + i) := by
  rw [List.drop_drop]

/-- Position translation for the match attempt at a suffix. -/
theorem genMatch_drop (bodyP : List Char → Bool) (pwI : Bool) (cs : List Char)
    (d i : Nat) :
    genMatch bodyP (wBefore (wBefore pwI cs d) (cs.drop d) i) ((cs.drop d).drop i) =
      genMatch bodyP (wBefore pwI cs (d + i)) (cs.drop (d + i)) := by
  rw [wBefore_drop, drop_drop_at]

/-- The heart of the idempotence argument: one re.sub pass for pattern P
leaves no occurrence of pattern Q in its output, provided a Q occurrence
can appear nowhere in the input without the P matcher also succeeding at
that position (for Q = P this is matcher completeness; for an
earlier-stage Q it follows from Q-freedom of the input). hQbrack and
hQanchor say that a Q occurrence never contains a bracket and always
contains an at-sign or a digit, so no occurrence can overlap the
replacement text; the word-ness hypothesis on the flanks carries the
boundary bookkeeping across the seams. -/
theorem reSub_no_shape (bodyP bodyQ : List Char → Bool)
    (hQbrack : ∀ m c, bodyQ m = true → c ∈ m → c ≠ '[' ∧ c ≠ ']')
    (hQanchor : ∀ m, bodyQ m = true → ∃ c ∈ m, c = '@' ∨ isDigitB c = true) :
    ∀ (n : Nat) (cs : List Char), cs.length ≤ n → ∀ (pwI pwO : Bool),
      (pwO ≠ wOpt cs.head? → pwI ≠ wOpt cs.head?) →
      (∀ i L, shapeAt bodyQ pwI cs i L →
          genMatch bodyP (wBefore pwI cs i) (cs.drop i) ≠ none) →
      ¬ HasShape bodyQ pwO (reSub bodyP pwI cs) := by
  intro n
  induction n with
  | zero =>
      intro cs hlen pwI pwO hHB hH
      have hnil : cs = [] := List.length_eq_zero.mp (by omega)
      subst hnil
      rw [reSub_nil]
      rintro ⟨i, Lq, hsh⟩
      have h1 := hsh.1
      have h2 := hsh.2.1
      simp only [List.length_nil] at h2
      omega
  | succ n ihn =>
      intro cs hlen pwI pwO hHB hH
      rcases reSub_cases bodyP cs pwI with ⟨he, hall⟩ | ⟨k, L, hkL, hL1, hfail, hmk, heq⟩
      · rw [he]
        rintro ⟨i, Lq, h1, h2, h3, h4, h5⟩
        have hsh' : shapeAt bodyQ pwI cs i Lq := by
          refine ⟨h1, h2, h3, ?_, h5⟩
          cases i with
          | zero =>
              rw [List.head?_eq_getElem?] at hHB
              exact hHB h4
          | succ j => exact h4
        exact hH i Lq hsh' (hall i)
      · rw [heq]
        have hmok := matchOK_iff.mp (genMatch_some hmk)
        set T := reSub bodyP (wOpt cs[k + L - 1]?) (cs.drop (k + L)) with hT
        rintro ⟨i, Lq, h1, h2, h3, h4, h5⟩
        have hRlen : RED.length = 10 := rfl
        have hklen : k ≤ cs.length := by omega
        have hAlen : (cs.take k).length = k := by
          rw [List.length_take]
          omega
        have hout_len : (cs.take k ++ RED ++ T).length = k + 10 + T.length := by
          simp [hAlen]
          omega
        have hout_left : ∀ j, j < k → (cs.take k ++ RED ++ T)[j]? = cs[j]? := by
          intro j hj
          rw [List.append_assoc, gel_left (by omega), gel_take hj]
        have hout_red : ∀ j, j < 10 → (cs.take k ++ RED ++ T)[k + j]? = RED[j]? := by
          intro j hj
          rw [List.append_assoc, gel_right (by omega), hAlen]
          rw [gel_left (by omega : k + j - k < RED.length)]
          congr 1
          omega
        have hout_tail : ∀ j, (cs.take k ++ RED ++ T)[k + 10 + j]? = T[j]? := by
          intro j
          rw [List.append_assoc, gel_right (by omega), hAlen, gel_right (by omega)]
          congr 1
          omega
        -- the five-way position split
        rcases (by omega :
            (i + Lq ≤ k) ∨ (i ≤ k ∧ k < i + Lq) ∨
            (k + 1 ≤ i ∧ i ≤ k + 9 ∧ k + 9 < i + Lq) ∨
            (k + 1 ≤ i ∧ i + Lq ≤ k + 9) ∨ (k + 10 ≤ i)) with
          hA | ⟨hBi, hBl⟩ | ⟨hCi, hCj, hCl⟩ | ⟨hDi, hDl⟩ | hE
        · -- entirely inside the unreplaced prefix: lift to an input shape
          have hi_lt : i < k := by omega
          have hbody : ((cs.take k ++ RED ++ T).drop i).take Lq = (cs.drop i).take Lq := by
            rw [List.append_assoc,
              List.drop_append_of_le_length (by rw [hAlen]; omega),
              List.take_append_of_le_length (by rw [List.length_drop, hAlen]; omega),
              List.drop_take, List.take_take]
            congr 1
            omega
          have hstart : wBefore pwI cs i ≠ wOpt cs[i]? := by
            have h4' := h4
            rw [hout_left i hi_lt] at h4'
            cases i with
            | zero =>
                rw [List.head?_eq_getElem?] at hHB
                exact hHB h4'
            | succ j =>
                show wOpt cs[j]? ≠ wOpt cs[j + 1]?
                have := hout_left j (by omega)
                rw [show wBefore pwO (cs.take k ++ RED ++ T) (j + 1) =
                    wOpt (cs.take k ++ RED ++ T)[j]? from rfl, this] at h4'
                exact h4'
          have hend : wOpt cs[i + Lq - 1]? ≠ wOpt cs[i + Lq]? := by
            have hl := hout_left (i + Lq - 1) (by omega)
            rw [hl] at h5
            rcases Nat.lt_or_ge (i + Lq) k with hlt | hge
            · rw [hout_left (i + Lq) hlt] at h5
              exact h5
            · -- i + Lq = k: use the boundary before the P match instead
              have hik : i + Lq = k := by omega
              have hstartP : wBefore pwI cs k ≠ wOpt (cs.drop k).head? := hmok.2.2.2.1
              rw [List.head?_eq_getElem?, List.getElem?_drop, Nat.add_zero] at hstartP
              have hwb : wBefore pwI cs k = wOpt cs[k - 1]? := by
                rw [show k = (k - 1) + 1 by omega]
                rfl
              rw [hwb] at hstartP
              rw [hik]
              exact hstartP
          have hsh' : shapeAt bodyQ pwI cs i Lq :=
            ⟨h1, by omega, by rw [hbody] at h3; exact h3, hstart, hend⟩
          exact hH i Lq hsh' (hfail i hi_lt)
        · -- the occurrence would contain the opening bracket
          have hmem : '[' ∈ (((cs.take k ++ RED ++ T).drop i).take Lq) := by
            refine List.mem_iff_getElem?.mpr ⟨k - i, ?_⟩
            rw [gel_take_drop (by omega : k - i < Lq),
              show i + (k - i) = k by omega]
            have := hout_red 0 (by omega)
            simpa using this
          exact absurd rfl (hQbrack _ '[' h3 hmem).1
        · -- the occurrence would contain the closing bracket
          have hmem : ']' ∈ (((cs.take k ++ RED ++ T).drop i).take Lq) := by
            refine List.mem_iff_getElem?.mpr ⟨k + 9 - i, ?_⟩
            rw [gel_take_drop (by omega : k + 9 - i < Lq),
              show i + (k + 9 - i) = k + 9 by omega]
            exact hout_red 9 (by omega)
          exact absurd rfl (hQbrack _ ']' h3 hmem).2
        · -- the occurrence would sit inside the replacement letters
          obtain ⟨c, hcm, hcan⟩ := hQanchor _ h3
          obtain ⟨j, hj⟩ := List.mem_iff_getElem?.mp hcm
          have hjlen : j < Lq := by
            by_contra hge
            rw [List.getElem?_take, if_neg (by omega)] at hj
            cases hj
          rw [gel_take_drop hjlen] at hj
          have hidx1 : k + 1 ≤ i + j := by omega
          have hidx2 : i + j ≤ k + 8 := by omega
          have hred : (cs.take k ++ RED ++ T)[i + j]? = RED[i + j - k]? := by
            have := hout_red (i + j - k) (by omega)
            rw [show k + (i + j - k) = i + j by omega] at this
            exact this
          rw [hred] at hj
          set idx := i + j - k with hidxdef
          have hidxb1 : 1 ≤ idx := by omega
          have hidxb2 : idx ≤ 8 := by omega
          interval_cases idx <;>
            simp only [RED, List.getElem?_cons_succ, List.getElem?_cons_zero,
              Option.some.injEq] at hj <;>
            rw [← hj] at hcan <;> revert hcan <;> decide
        · -- entirely inside the recursive output: lift into the tail scan
          have hTlen : (cs.drop (k + L)).length ≤ n := by
            rw [List.length_drop]
            omega
          have hend : wOpt cs[k + L - 1]? ≠ wOpt cs[k + L]? := by
            have h := hmok.2.2.2.2
            rw [List.getElem?_drop, List.getElem?_drop,
              show k + (L - 1) = k + L - 1 by omega] at h
            exact h
          have hHB' : (false : Bool) ≠ wOpt (cs.drop (k + L)).head? →
              wOpt cs[k + L - 1]? ≠ wOpt (cs.drop (k + L)).head? := by
            intro _
            rw [List.head?_eq_getElem?, List.getElem?_drop, Nat.add_zero]
            exact hend
          have hwb : wOpt cs[k + L - 1]? = wBefore pwI cs (k + L) := by
            rw [show k + L = (k + L - 1) + 1 by omega]
            rfl
          have hH' : ∀ i' L', shapeAt bodyQ (wOpt cs[k + L - 1]?) (cs.drop (k + L)) i' L' →
              genMatch bodyP (wBefore (wOpt cs[k + L - 1]?) (cs.drop (k + L)) i')
                ((cs.drop (k + L)).drop i') ≠ none := by
            intro i' L' hs
            rw [hwb] at hs ⊢
            rw [genMatch_drop]
            exact hH (k + L + i') L' (shapeAt_drop.mp hs)
          have hnot := ihn (cs.drop (k + L)) hTlen (wOpt cs[k + L - 1]?) false hHB' hH'
          rw [← hT] at hnot
          apply hnot
          refine ⟨i - (k + 10), Lq, h1, ?_, ?_, ?_, ?_⟩
          · rw [hout_len] at h2
            omega
          · have hdt : (cs.take k ++ RED ++ T).drop i = T.drop (i - (k + 10)) := by
              rw [show cs.take k ++ RED ++ T = (cs.take k ++ RED) ++ T from by
                  rw [List.append_assoc]]
              conv_lhs =>
                rw [show i = (cs.take k ++ RED).length + (i - (k + 10)) from by
                  rw [List.length_append, hAlen, hRlen]
                  omega]
              rw [List.drop_append]
            rw [hdt] at h3
            exact h3
          · have hTj : T[i - (k + 10)]? = (cs.take k ++ RED ++ T)[i]? := by
              rw [← hout_tail (i - (k + 10)), show k + 10 + (i - (k + 10)) = i by omega]
            cases hcase : i - (k + 10) with
            | zero =>
                rw [hcase] at hTj
                have hik : i = k + 10 := by omega
                show (false : Bool) ≠ wOpt T[0]?
                rw [hTj, hik]
                have h4' := h4
                rw [hik] at h4'
                rw [show wBefore pwO (cs.take k ++ RED ++ T) (k + 10) =
                    wOpt (cs.take k ++ RED ++ T)[k + 9]? from rfl,
                  hout_red 9 (by omega)] at h4'
                have hb : wOpt RED[9]? = false := by decide
                rw [hb] at h4'
                exact h4'
            | succ j' =>
                rw [hcase] at hTj
                show wOpt T[j']? ≠ wOpt T[j' + 1]?
                rw [hTj, ← hout_tail j', show k + 10 + j' = i - 1 by omega]
                have h4' := h4
                rw [show wBefore pwO (cs.take k ++ RED ++ T) i =
                    wOpt (cs.take k ++ RED ++ T)[i - 1]? from by
                  rw [show i = (i - 1) + 1 by omega]
                  rfl] at h4'
                exact h4'
          · rw [← hout_tail (i - (k + 10) + Lq - 1),
              show k + 10 + (i - (k + 10) + Lq - 1) = i + Lq - 1 by omega,
              ← hout_tail (i - (k + 10) + Lq),
              show k + 10 + (i - (k + 10) + Lq) = i + Lq by omega]
            exact h5

/-- A pass over a string free of its own pattern is the identity. -/
theorem reSub_eq_self {body : List Char → Bool} {pw : Bool} {cs : List Char}
    (h : ¬ HasShape body pw cs) : reSub body pw cs = cs := by
  rcases reSub_cases body cs pw with ⟨he, _⟩ | ⟨k, L, _, _, _, hmk, _⟩
  · exact he
  · exact absurd ⟨k, L, shapeAt_iff_matchOK.mpr (genMatch_some hmk)⟩ h

/-- Completeness at every position: a shape of the pass's own pattern
makes the matcher succeed there. -/
theorem H_self (body : List Char → Bool) (pw : Bool) (cs : List Char) :
    ∀ i L, shapeAt body pw cs i L →
      genMatch body (wBefore pw cs i) (cs.drop i) ≠ none :=
  fun _ _ hs => genMatch_ne_none (shapeAt_iff_matchOK.mp hs)

/-- A pattern absent from the input trivially satisfies the master
hypothesis. -/
theorem H_of_free {bodyQ : List Char → Bool} {pw : Bool} {cs : List Char}
    (h : ¬ HasShape bodyQ pw cs) (bodyP : List Char → Bool) :
    ∀ i L, shapeAt bodyQ pw cs i L →
      genMatch bodyP (wBefore pw cs i) (cs.drop i) ≠ none :=
  fun i L hs => absurd ⟨i, L, hs⟩ h

/-- The character at a sepAt position satisfies the class. -/
theorem sepAt_char {p : Char → Bool} {m : List Char} {i : Nat}
    (h : sepAt p m i = true) {c : Char} (hc : m[i]? = some c) : p c = true := by
  unfold sepAt at h
  rw [hc] at h
  exact h

/-- A sepAt position holds a character of the class. -/
theorem sepAt_exists {p : Char → Bool} {m : List Char} {i : Nat}
    (h : sepAt p m i = true) : ∃ c, m[i]? = some c ∧ p c = true := by
  unfold sepAt at h
  cases hm : m[i]? with
  | none => rw [hm] at h; cases h
  | some c => rw [hm] at h; exact ⟨c, rfl, h⟩

/-- Characters inside an all-digit window are digits. -/
theorem seg_char {m : List Char} {i n : Nat} (h : seg m i n = true) {j : Nat}
    (h1 : i ≤ j) (h2 : j < i + n) {c : Char} (hc : m[j]? = some c) :
    isDigitB c = true := by
  unfold seg at h
  rw [List.all_eq_true] at h
  apply h
  refine List.mem_iff_getElem?.mpr ⟨j - i, ?_⟩
  rw [List.getElem?_take, if_pos (by omega), List.getElem?_drop,
    show i + (j - i) = j by omega]
  exact hc

/-- A leading all-digit window provides an anchor digit. -/
theorem seg_anchor {m : List Char} {n : Nat} (hseg : seg m 0 n = true) (hn : 1 ≤ n)
    (hlen : 1 ≤ m.length) : ∃ c ∈ m, c = '@' ∨ isDigitB c = true := by
  cases hm : m[0]? with
  | none =>
      rw [List.getElem?_eq_none_iff] at hm
      omega
  | some c =>
      exact ⟨c, List.mem_iff_getElem?.mpr ⟨0, hm⟩,
        Or.inr (seg_char hseg (by omega) (by omega) hm)⟩

/-- Members of a takeWhile prefix satisfy the predicate. -/
theorem mem_takeWhileB {p : Char → Bool} : ∀ {l : List Char} {a : Char},
    a ∈ l.takeWhile p → p a = true := by
  intro l
  induction l with
  | nil => intro a h; simp [List.takeWhile] at h
  | cons c rest ih =>
      intro a h
      rw [List.takeWhile_cons] at h
      cases hp : p c with
      | false => rw [hp] at h; simp at h
      | true =>
          rw [hp] at h
          cases h with
          | head => exact hp
          | tail b h1 => exact ih h1

/-- Every character of a PHONE occurrence is a digit or a phone separator. -/
theorem phoneBody_char {m : List Char} (h : phoneBody m = true) {j : Nat} {c : Char}
    (hc : m[j]? = some c) : isDigitB c = true ∨ phoneSepB c = true := by
  have hj : j < m.length := by
    by_contra hge
    rw [List.getElem?_eq_none (by omega)] at hc
    cases hc
  unfold phoneBody at h
  simp only [Bool.or_eq_true, Bool.and_eq_true, decide_eq_true_eq, and_assoc, or_assoc] at h
  rcases h with ⟨hlen, hs⟩ | ⟨hlen, hsub⟩ | ⟨hlen, hs1, hp1, hs2, hp2, hs3⟩
  · exact Or.inl (seg_char hs (by omega) (by omega) hc)
  · rcases hsub with ⟨hs1, hp, hs2⟩ | ⟨hs1, hp, hs2⟩
    · rcases (by omega : j < 3 ∨ j = 3 ∨ (4 ≤ j ∧ j < 11)) with hr | hr | hr
      · exact Or.inl (seg_char hs1 (by omega) (by omega) hc)
      · subst hr; exact Or.inr (sepAt_char hp hc)
      · exact Or.inl (seg_char hs2 (by omega) (by omega) hc)
    · rcases (by omega : j < 6 ∨ j = 6 ∨ (7 ≤ j ∧ j < 11)) with hr | hr | hr
      · exact Or.inl (seg_char hs1 (by omega) (by omega) hc)
      · subst hr; exact Or.inr (sepAt_char hp hc)
      · exact Or.inl (seg_char hs2 (by omega) (by omega) hc)
  · rcases (by omega : j < 3 ∨ j = 3 ∨ (4 ≤ j ∧ j < 7) ∨ j = 7 ∨ (8 ≤ j ∧ j < 12))
      with hr | hr | hr | hr | hr
    · exact Or.inl (seg_char hs1 (by omega) (by omega) hc)
    · subst hr; exact Or.inr (sepAt_char hp1 hc)
    · exact Or.inl (seg_char hs2 (by omega) (by omega) hc)
    · subst hr; exact Or.inr (sepAt_char hp2 hc)
    · exact Or.inl (seg_char hs3 (by omega) (by omega) hc)

/-- PHONE occurrences contain no brackets. -/
theorem phoneBody_brack : ∀ (m : List Char) (c : Char), phoneBody m = true → c ∈ m →
    c ≠ '[' ∧ c ≠ ']' := by
  intro m c h hmem
  obtain ⟨j, hj⟩ := List.mem_iff_getElem?.mp hmem
  rcases phoneBody_char h hj with hd | hs
  · constructor <;> rintro rfl <;> exact absurd hd (by decide)
  · constructor <;> rintro rfl <;> exact absurd hs (by decide)

/-- PHONE occurrences contain a digit. -/
theorem phoneBody_anchor : ∀ m : List Char, phoneBody m = true →
    ∃ c ∈ m, c = '@' ∨ isDigitB c = true := by
  intro m h
  unfold phoneBody at h
  simp only [Bool.or_eq_true, Bool.and_eq_true, decide_eq_true_eq, and_assoc, or_assoc] at h
  rcases h with ⟨hlen, hs⟩ | ⟨hlen, hsub⟩ | ⟨hlen, hs1, _⟩
  · exact seg_anchor hs (by omega) (by omega)
  · rcases hsub with ⟨hs1, _⟩ | ⟨hs1, _⟩ <;> exact seg_anchor hs1 (by omega) (by omega)
  · exact seg_anchor hs1 (by omega) (by omega)

/-- Every character of an SSN occurrence is a digit or a dash. -/
theorem ssnBody_char {m : List Char} (h : ssnBody m = true) {j : Nat} {c : Char}
    (hc : m[j]? = some c) : isDigitB c = true ∨ dashB c = true := by
  have hj : j < m.length := by
    by_contra hge
    rw [List.getElem?_eq_none (by omega)] at hc
    cases hc
  unfold ssnBody at h
  simp only [Bool.and_eq_true, decide_eq_true_eq, and_assoc] at h
  obtain ⟨hlen, hs1, hp1, hs2, hp2, hs3⟩ := h
  rcases (by omega : j < 3 ∨ j = 3 ∨ (4 ≤ j ∧ j < 6) ∨ j = 6 ∨ (7 ≤ j ∧ j < 11))
    with hr | hr | hr | hr | hr
  · exact Or.inl (seg_char hs1 (by omega) (by omega) hc)
  · subst hr; exact Or.inr (sepAt_char hp1 hc)
  · exact Or.inl (seg_char hs2 (by omega) (by omega) hc)
  · subst hr; exact Or.inr (sepAt_char hp2 hc)
  · exact Or.inl (seg_char hs3 (by omega) (by omega) hc)

/-- SSN occurrences contain no brackets. -/
theorem ssnBody_brack : ∀ (m : List Char) (c : Char), ssnBody m = true → c ∈ m →
    c ≠ '[' ∧ c ≠ ']' := by
  intro m c h hmem
  obtain ⟨j, hj⟩ := List.mem_iff_getElem?.mp hmem
  rcases ssnBody_char h hj with hd | hs
  · constructor <;> rintro rfl <;> exact absurd hd (by decide)
  · constructor <;> rintro rfl <;> exact absurd hs (by decide)

/-- SSN occurrences contain a digit. -/
theorem ssnBody_anchor : ∀ m : List Char, ssnBody m = true →
    ∃ c ∈ m, c = '@' ∨ isDigitB c = true := by
  intro m h
  unfold ssnBody at h
  simp only [Bool.and_eq_true, decide_eq_true_eq, and_assoc] at h
  obtain ⟨hlen, hs1, _⟩ := h
  exact seg_anchor hs1 (by omega) (by omega)

/-- Every character of a CREDIT_CARD occurrence is a digit or a card
separator. -/
theorem ccBody_char {m : List Char} (h : ccBody m = true) {j : Nat} {c : Char}
    (hc : m[j]? = some c) : isDigitB c = true ∨ ccSepB c = true := by
  have hj : j < m.length := by
    by_contra hge
    rw [List.getElem?_eq_none (by omega)] at hc
    cases hc
  unfold ccBody at h
  simp only [Bool.or_eq_true, Bool.and_eq_true, decide_eq_true_eq, and_assoc, or_assoc] at h
  rcases h with ⟨hlen, hs⟩ | ⟨hlen, hsub⟩ | ⟨hlen, hsub⟩ |
    ⟨hlen, hs1, hp1, hs2, hp2, hs3, hp3, hs4⟩
  · exact Or.inl (seg_char hs (by omega) (by omega) hc)
  · rcases hsub with ⟨hs1, hp, hs2⟩ | ⟨hs1, hp, hs2⟩ | ⟨hs1, hp, hs2⟩
    · rcases (by omega : j < 4 ∨ j = 4 ∨ (5 ≤ j ∧ j < 17)) with hr | hr | hr
      · exact Or.inl (seg_char hs1 (by omega) (by omega) hc)
      · subst hr; exact Or.inr (sepAt_char hp hc)
      · exact Or.inl (seg_char hs2 (by omega) (by omega) hc)
    · rcases (by omega : j < 8 ∨ j = 8 ∨ (9 ≤ j ∧ j < 17)) with hr | hr | hr
      · exact Or.inl (seg_char hs1 (by omega) (by omega) hc)
      · subst hr; exact Or.inr (sepAt_char hp hc)
      · exact Or.inl (seg_char hs2 (by omega) (by omega) hc)
    · rcases (by omega : j < 12 ∨ j = 12 ∨ (13 ≤ j ∧ j < 17)) with hr | hr | hr
      · exact Or.inl (seg_char hs1 (by omega) (by omega) hc)
      · subst hr; exact Or.inr (sepAt_char hp hc)
      · exact Or.inl (seg_char hs2 (by omega) (by omega) hc)
  · rcases hsub with ⟨hs1, hp1, hs2, hp2, hs3⟩ | ⟨hs1, hp1, hs2, hp2, hs3⟩ |
      ⟨hs1, hp1, hs2, hp2, hs3⟩
    · rcases (by omega : j < 4 ∨ j = 4 ∨ (5 ≤ j ∧ j < 9) ∨ j = 9 ∨ (10 ≤ j ∧ j < 18))
        with hr | hr | hr | hr | hr
      · exact Or.inl (seg_char hs1 (by omega) (by omega) hc)
      · subst hr; exact Or.inr (sepAt_char hp1 hc)
      · exact Or.inl (seg_char hs2 (by omega) (by omega) hc)
      · subst hr; exact Or.inr (sepAt_char hp2 hc)
      · exact Or.inl (seg_char hs3 (by omega) (by omega) hc)
    · rcases (by omega : j < 4 ∨ j = 4 ∨ (5 ≤ j ∧ j < 13) ∨ j = 13 ∨ (14 ≤ j ∧ j < 18))
        with hr | hr | hr | hr | hr
      · exact Or.inl (seg_char hs1 (by omega) (by omega) hc)
      · subst hr; exact Or.inr (sepAt_char hp1 hc)
      · exact Or.inl (seg_char hs2 (by omega) (by omega) hc)
      · subst hr; exact Or.inr (sepAt_char hp2 hc)
      · exact Or.inl (seg_char hs3 (by omega) (by omega) hc)
    · rcases (by omega : j < 8 ∨ j = 8 ∨ (9 ≤ j ∧ j < 13) ∨ j = 13 ∨ (14 ≤ j ∧ j < 18))
        with hr | hr | hr | hr | hr
      · exact Or.inl (seg_char hs1 (by omega) (by omega) hc)
      · subst hr; exact Or.inr (sepAt_char hp1 hc)
      · exact Or.inl (seg_char hs2 (by omega) (by omega) hc)
      · subst hr; exact Or.inr (sepAt_char hp2 hc)
      · exact Or.inl (seg_char hs3 (by omega) (by omega) hc)
  · rcases (by omega : j < 4 ∨ j = 4 ∨ (5 ≤ j ∧ j < 9) ∨ j = 9 ∨ (10 ≤ j ∧ j < 14) ∨
        j = 14 ∨ (15 ≤ j ∧ j < 19)) with hr | hr | hr | hr | hr | hr | hr
    · exact Or.inl (seg_char hs1 (by omega) (by omega) hc)
    · subst hr; exact Or.inr (sepAt_char hp1 hc)
    · exact Or.inl (seg_char hs2 (by omega) (by omega) hc)
    · subst hr; exact Or.inr (sepAt_char hp2 hc)
    · exact Or.inl (seg_char hs3 (by omega) (by omega) hc)
    · subst hr; exact Or.inr (sepAt_char hp3 hc)
    · exact Or.inl (seg_char hs4 (by omega) (by omega) hc)

/-- CREDIT_CARD occurrences contain no brackets. -/
theorem ccBody_brack : ∀ (m : List Char) (c : Char), ccBody m = true → c ∈ m →
    c ≠ '[' ∧ c ≠ ']' := by
  intro m c h hmem
  obtain ⟨j, hj⟩ := List.mem_iff_getElem?.mp hmem
  rcases ccBody_char h hj with hd | hs
  · constructor <;> rintro rfl <;> exact absurd hd (by decide)
  · constructor <;> rintro rfl <;> exact absurd hs (by decide)

/-- CREDIT_CARD occurrences contain a digit. -/
theorem ccBody_anchor : ∀ m : List Char, ccBody m = true →
    ∃ c ∈ m, c = '@' ∨ isDigitB c = true := by
  intro m h
  unfold ccBody at h
  simp only [Bool.or_eq_true, Bool.and_eq_true, decide_eq_true_eq, and_assoc, or_assoc] at h
  rcases h with ⟨hlen, hs⟩ | ⟨hlen, hsub⟩ | ⟨hlen, hsub⟩ | ⟨hlen, hs1, _⟩
  · exact seg_anchor hs (by omega) (by omega)
  · rcases hsub with ⟨hs1, _⟩ | ⟨hs1, _⟩ | ⟨hs1, _⟩ <;>
      exact seg_anchor hs1 (by omega) (by omega)
  · rcases hsub with ⟨hs1, _⟩ | ⟨hs1, _⟩ | ⟨hs1, _⟩ <;>
      exact seg_anchor hs1 (by omega) (by omega)
  · exact seg_anchor hs1 (by omega) (by omega)

/-- Every character of an EMAIL occurrence lies in one of the pattern's
classes. -/
theorem emailBody_char {m : List Char} (h : emailBody m = true) {j : Nat} {c : Char}
    (hc : m[j]? = some c) :
    localCB c = true ∨ c = '@' ∨ domainCB c = true ∨ tldCB c = true := by
  unfold emailBody at h
  simp only [Bool.and_eq_true, decide_eq_true_eq, List.any_eq_true, List.mem_range,
    and_assoc] at h
  obtain ⟨h1, h2, k, hk, hk1, hdom, hdot, hlen2, htld⟩ := h
  rcases (by omega : j < (m.takeWhile localCB).length ∨ j = (m.takeWhile localCB).length ∨
      (m.takeWhile localCB).length + 1 ≤ j) with hr | hr | hr
  · obtain ⟨t, ht⟩ := (List.takeWhile_prefix localCB :
      m.takeWhile localCB <+: m)
    left
    apply mem_takeWhileB
    refine List.mem_iff_getElem?.mpr ⟨j, ?_⟩
    rw [← ht, gel_left hr] at hc
    exact hc
  · subst hr
    have := sepAt_char h2 hc
    unfold atB at this
    exact Or.inr (Or.inl (by simpa using this))
  · set l := (m.takeWhile localCB).length with hldef
    set rest := m.drop (l + 1) with hrest
    have hrj : rest[j - (l + 1)]? = some c := by
      rw [hrest, List.getElem?_drop, show l + 1 + (j - (l + 1)) = j by omega]
      exact hc
    rcases (by omega : j - (l + 1) < k ∨ j - (l + 1) = k ∨ k + 1 ≤ j - (l + 1))
      with hs | hs | hs
    · right; right; left
      rw [List.all_eq_true] at hdom
      apply hdom
      refine List.mem_iff_getElem?.mpr ⟨j - (l + 1), ?_⟩
      rw [gel_take hs]
      exact hrj
    · have := sepAt_char hdot (by rw [← hs]; exact hrj)
      unfold dotB at this
      have hcdot : c = '.' := by simpa using this
      subst hcdot
      exact Or.inr (Or.inr (Or.inl (by decide)))
    · right; right; right
      rw [List.all_eq_true] at htld
      apply htld
      refine List.mem_iff_getElem?.mpr ⟨j - (l + 1) - (k + 1), ?_⟩
      rw [List.getElem?_drop, show k + 1 + (j - (l + 1) - (k + 1)) = j - (l + 1) by omega]
      exact hrj

/-- EMAIL occurrences contain no brackets. -/
theorem emailBody_brack : ∀ (m : List Char) (c : Char), emailBody m = true → c ∈ m →
    c ≠ '[' ∧ c ≠ ']' := by
  intro m c h hmem
  obtain ⟨j, hj⟩ := List.mem_iff_getElem?.mp hmem
  rcases emailBody_char h hj with hx | hx | hx | hx
  · constructor <;> rintro rfl <;> exact absurd hx (by decide)
  · constructor <;> rintro rfl <;> cases hx
  · constructor <;> rintro rfl <;> exact absurd hx (by decide)
  · constructor <;> rintro rfl <;> exact absurd hx (by decide)

/-- EMAIL occurrences contain the at-sign. -/
theorem emailBody_anchor : ∀ m : List Char, emailBody m = true →
    ∃ c ∈ m, c = '@' ∨ isDigitB c = true := by
  intro m h
  unfold emailBody at h
  simp only [Bool.and_eq_true, decide_eq_true_eq, and_assoc] at h
  obtain ⟨h1, h2, _⟩ := h
  obtain ⟨c, hc, hp⟩ := sepAt_exists h2
  unfold atB at hp
  exact ⟨c, List.mem_iff_getElem?.mpr ⟨_, hc⟩, Or.inl (by simpa using hp)⟩

/-- A pass leaves no occurrence of its own pattern behind. -/
theorem stage_new (bodyP : List Char → Bool)
    (hbrack : ∀ (m : List Char) (c : Char), bodyP m = true → c ∈ m → c ≠ '[' ∧ c ≠ ']')
    (hanchor : ∀ m : List Char, bodyP m = true → ∃ c ∈ m, c = '@' ∨ isDigitB c = true)
    (cs : List Char) : ¬ HasShape bodyP false (reSub bodyP false cs) :=
  reSub_no_shape bodyP bodyP hbrack hanchor cs.length cs le_rfl false false
    (fun h => h) (H_self bodyP false cs)

/-- A pass preserves freedom from any of the four patterns. -/
theorem stage_preserve (bodyP bodyQ : List Char → Bool)
    (hQbrack : ∀ (m : List Char) (c : Char), bodyQ m = true → c ∈ m → c ≠ '[' ∧ c ≠ ']')
    (hQanchor : ∀ m : List Char, bodyQ m = true → ∃ c ∈ m, c = '@' ∨ isDigitB c = true)
    (cs : List Char) (hfree : ¬ HasShape bodyQ false cs) :
    ¬ HasShape bodyQ false (reSub bodyP false cs) :=
  reSub_no_shape bodyP bodyQ hQbrack hQanchor cs.length cs le_rfl false false
    (fun h => h) (H_of_free hfree bodyP)

/-- The output of scrub_pii is free of all four patterns. -/
theorem scrub_pii_free (text : List Char) :
    ¬ HasShape emailBody false (scrub_pii text) ∧
    ¬ HasShape phoneBody false (scrub_pii text) ∧
    ¬ HasShape ssnBody false (scrub_pii text) ∧
    ¬ HasShape ccBody false (scrub_pii text) := by
  have hE1 := stage_new emailBody emailBody_brack emailBody_anchor text
  have hP1 := stage_new phoneBody phoneBody_brack phoneBody_anchor
    (reSub emailBody false text)
  have hE2 := stage_preserve phoneBody emailBody emailBody_brack emailBody_anchor
    (reSub emailBody false text) hE1
  have hS1 := stage_new ssnBody ssnBody_brack ssnBody_anchor
    (reSub phoneBody false (reSub emailBody false text))
  have hE3 := stage_preserve ssnBody emailBody emailBody_brack emailBody_anchor
    (reSub phoneBody false (reSub emailBody false text)) hE2
  have hP2 := stage_preserve ssnBody phoneBody phoneBody_brack phoneBody_anchor
    (reSub phoneBody false (reSub emailBody false text)) hP1
  have hC1 := stage_new ccBody ccBody_brack ccBody_anchor
    (reSub ssnBody false (reSub phoneBody false (reSub emailBody false text)))
  have hE4 := stage_preserve ccBody emailBody emailBody_brack emailBody_anchor
    (reSub ssnBody false (reSub phoneBody false (reSub emailBody false text))) hE3
  have hP3 := stage_preserve ccBody phoneBody phoneBody_brack phoneBody_anchor
    (reSub ssnBody false (reSub phoneBody false (reSub emailBody false text))) hP2
  have hS2 := stage_preserve ccBody ssnBody ssnBody_brack ssnBody_anchor
    (reSub ssnBody false (reSub phoneBody false (reSub emailBody false text))) hS1
  exact ⟨hE4, hP3, hS2, hC1⟩

/-- List-level idempotence of scrub_pii. -/
theorem scrub_pii_idem_list (text : List Char) :
    scrub_pii (scrub_pii text) = scrub_pii text := by
  obtain ⟨hE, hP, hS, hC⟩ := scrub_pii_free text
  show reSub ccBody false (reSub ssnBody false (reSub phoneBody false
      (reSub emailBody false (scrub_pii text)))) = scrub_pii text
  rw [reSub_eq_self hE, reSub_eq_self hP, reSub_eq_self hS, reSub_eq_self hC]

end Privacy

/-- The usage-summation fold, with its accumulator generalized. -/
theorem sumUsage_loop (rs : List (Option Workflows.Usage)) (a b : Nat) :
    rs.foldl
      (fun acc o =>
        match o with
        | some u => (acc.1 + u.input_tokens, acc.2 + u.output_tokens)
        | none => acc)
      (a, b) =
    (a + (rs.map fun o => (o.map Workflows.Usage.input_tokens).getD 0).sum,
     b + (rs.map fun o => (o.map Workflows.Usage.output_tokens).getD 0).sum) := by
  induction rs generalizing a b with
  | nil => simp
  | cons o rs ih =>
      cases o with
      | none => simp [List.foldl_cons, ih]
      | some u => simp [List.foldl_cons, ih, Nat.add_assoc]

/-- The usage-summation loop computes the two token sums. -/
theorem sumUsage_eq (rs : List (Option Workflows.Usage)) :
    Workflows.sumUsage rs =
      ((rs.map fun o => (o.map Workflows.Usage.input_tokens).getD 0).sum,
       (rs.map fun o => (o.map Workflows.Usage.output_tokens).getD 0).sum) := by
  unfold Workflows.sumUsage
  rw [sumUsage_loop]
  simp

/-- C5: the usage counters of a completed workflow result are the sums of the
input-token and output-token counts over all raw model responses the agent run produced
(a response without usage data contributes zero), and total_tokens equals prompt_tokens
plus completion_tokens. -/
theorem usage_counters_summed (request : Workflows.ResearchRequest)
    (runner : String → Workflows.AgentRunResult) :
    ((Workflows.ResearchWorkflow.run request runner).usage.prompt_tokens =
      ((runner (Workflows.buildResearchInput request)).raw_responses.map
          fun o => (o.map Workflows.Usage.input_tokens).getD 0).sum)
    ∧ ((Workflows.ResearchWorkflow.run request runner).usage.completion_tokens =
      ((runner (Workflows.buildResearchInput request)).raw_responses.map
          fun o => (o.map Workflows.Usage.output_tokens).getD 0).sum)
    ∧ ((Workflows.ResearchWorkflow.run request runner).usage.total_tokens =
      (Workflows.ResearchWorkflow.run request runner).usage.prompt_tokens +
        (Workflows.ResearchWorkflow.run request runner).usage.completion_tokens) := by
  refine ⟨?_, ?_, ?_⟩ <;>
    simp [Workflows.ResearchWorkflow.run, sumUsage_eq]

/-- C6 as stated is false at a present-but-empty URL: the Python truthiness test
`if request.job_url:` sends job_url="" down the no-URL branch, so the prompt asks for
typical requirements rather than analyzing the posting; also the prompt does not begin
with the job title itself but with the header "Job Title: ". -/
theorem prompt_url_truthiness_counterexample :
    Workflows.buildResearchInput ⟨"Data Scientist", some ""⟩ =
      "Job Title: Data Scientist\n\nPlease research this role and provide typical requirements and skills."
    ∧ Workflows.buildResearchInput ⟨"Data Scientist", some ""⟩ ≠
      "Job Title: Data Scientist\nJob URL: \n\nPlease analyze this job posting and extract the key information."
    ∧ ¬ ("Data Scientist".toList.isPrefixOf
          (Workflows.buildResearchInput ⟨"Data Scientist", none⟩).toList = true) :=
  ⟨rfl, by decide, by decide⟩

/-- C6 amended: the workflow builds its prompt deterministically from the request fields:
the prompt begins with the header "Job Title: " immediately followed by the job title;
when a non-empty posting URL is present the URL is included verbatim and the prompt asks
to analyze that posting; when the URL is absent or empty the prompt instead asks for the
typical requirements and skills of the titled role. -/
theorem research_prompt_construction (request : Workflows.ResearchRequest) :
    (∃ rest, Workflows.buildResearchInput request =
      "Job Title: " ++ request.job_title ++ rest)
    ∧ (∀ url, request.job_url = some url → url ≠ "" →
        Workflows.buildResearchInput request =
          "Job Title: " ++ request.job_title ++ ("\nJob URL: " ++ url ++
            "\n\nPlease analyze this job posting and extract the key information."))
    ∧ ((request.job_url = none ∨ request.job_url = some "") →
        Workflows.buildResearchInput request =
          "Job Title: " ++ request.job_title ++
            "\n\nPlease research this role and provide typical requirements and skills.") := by
  obtain ⟨jt, ju⟩ := request
  refine ⟨?_, ?_, ?_⟩
  · cases ju with
    | none => exact ⟨_, rfl⟩
    | some url =>
        by_cases hu : url = ""
        · subst hu
          exact ⟨_, rfl⟩
        · refine ⟨"\nJob URL: " ++ url ++
            "\n\nPlease analyze this job posting and extract the key information.", ?_⟩
          simp [Workflows.buildResearchInput, hu, String.append_assoc]
  · rintro url rfl hu
    simp [Workflows.buildResearchInput, hu, String.append_assoc]
  · rintro (rfl | rfl) <;> simp [Workflows.buildResearchInput, String.append_assoc]

/-- Witness for research_prompt_construction at a concrete URL request and a concrete
URL-less request. -/
theorem research_prompt_construction_witness :
    Workflows.buildResearchInput ⟨"Data Scientist", some "https://jobs.example/1"⟩ =
      "Job Title: " ++ "Data Scientist" ++ ("\nJob URL: " ++ "https://jobs.example/1" ++
        "\n\nPlease analyze this job posting and extract the key information.")
    ∧ Workflows.buildResearchInput ⟨"Data Scientist", none⟩ =
      "Job Title: " ++ "Data Scientist" ++
        "\n\nPlease research this role and provide typical requirements and skills." :=
  ⟨(research_prompt_construction ⟨"Data Scientist", some "https://jobs.example/1"⟩).2.1
      "https://jobs.example/1" rfl (by decide),
    (research_prompt_construction ⟨"Data Scientist", none⟩).2.2 (Or.inl rfl)⟩

/-- C7: every ResearchResult that passes pydantic validation has requirements and skills
lists of length at least 1 and at most 15, and consequently any result attached to a
successful completed status poll satisfies these bounds (the result fetched from the
engine is re-validated on deserialization; an out-of-bounds value raises and takes the
degraded path that attaches no result). -/
theorem research_result_list_bounds (raw r : Workflows.ResearchResult)
    (wid : String) (d : Router.DescribeOutcome) (f : Router.FetchOutcome)
    (resp : Router.ResearchStatusResponse) (r' : Workflows.ResearchResult) :
    (raw.model_validate = some r →
      1 ≤ r.requirements.length ∧ r.requirements.length ≤ 15 ∧
      1 ≤ r.skills.length ∧ r.skills.length ≤ 15)
    ∧ (Router.get_workflow_status wid d f = .ok resp → resp.result = some r' →
      1 ≤ r'.requirements.length ∧ r'.requirements.length ≤ 15 ∧
      1 ≤ r'.skills.length ∧ r'.skills.length ≤ 15) := by
  have key : ∀ x y : Workflows.ResearchResult, x.model_validate = some y →
      1 ≤ y.requirements.length ∧ y.requirements.length ≤ 15 ∧
      1 ≤ y.skills.length ∧ y.skills.length ≤ 15 := by
    intro x y hxy
    unfold Workflows.ResearchResult.model_validate at hxy
    split at hxy
    · rename_i hcond
      cases hxy
      exact ⟨hcond.1, hcond.2.1, hcond.2.2.1, hcond.2.2.2⟩
    · cases hxy
  refine ⟨key raw r, ?_⟩
  intro h1 h2
  cases d with
  | exn e => simp [Router.get_workflow_status] at h1
  | name nm =>
      by_cases hC : nm = "COMPLETED"
      · subst hC
        cases f with
        | exn e =>
            simp [Router.get_workflow_status] at h1
            rw [← h1] at h2
            cases h2
        | ok raww =>
            cases hval : raww.result.model_validate with
            | none =>
                simp [Router.get_workflow_status, hval] at h1
                rw [← h1] at h2
                cases h2
            | some v =>
                simp [Router.get_workflow_status, hval] at h1
                rw [← h1] at h2
                simp only [Option.some.injEq] at h2
                subst h2
                exact key _ _ hval
      · by_cases hR : nm = "RUNNING"
        · subst hR
          simp [Router.get_workflow_status] at h1
          rw [← h1] at h2
          cases h2
        · simp [Router.get_workflow_status, hC, hR] at h1
          rw [← h1] at h2
          cases h2

/-- Witness for research_result_list_bounds: a concrete validated result and a concrete
successful completed poll. -/
theorem research_result_list_bounds_witness :
    (Workflows.ResearchResult.model_validate ⟨"s", ["a"], ["b"], none⟩ =
      some ⟨"s", ["a"], ["b"], none⟩)
    ∧ (1 ≤ (["a"] : List String).length ∧ (["a"] : List String).length ≤ 15 ∧
        1 ≤ (["b"] : List String).length ∧ (["b"] : List String).length ≤ 15) :=
  ⟨by decide,
    (research_result_list_bounds ⟨"s", ["a"], ["b"], none⟩ ⟨"s", ["a"], ["b"], none⟩
      "research-abc" (.name "COMPLETED")
      (.ok ⟨"t", none, ⟨"s", ["a"], ["b"], none⟩, ⟨1, 2, 3⟩⟩)
      { request_id := "research-abc".replace "research-" "",
        workflow_id := "research-abc", job_title := "t", job_url := none,
        status := "completed", result := some ⟨"s", ["a"], ["b"], none⟩,
        usage := some ⟨1, 2, 3⟩ }
      ⟨"s", ["a"], ["b"], none⟩).2 rfl rfl⟩

/-- C8 (code evidence): the Settings model declares only the model-access credential,
model identifier, request timeout and log level; the engine address, namespace and
task-queue attributes that the engine code reads (settings.temporal_address,
settings.temporal_namespace, settings.temporal_task_queue) do not exist on a Settings
instance; and the task-queue name used by the submission endpoint is the hard-coded
literal "research-task-queue" on every start call, independent of any Settings value. -/
theorem engine_config_not_supplied_by_settings (s : Config.Settings)
    (body : Router.ResearchRequest) (request_id : String)
    (connect : Except String Unit) (start : Router.StartCall → Router.StartOutcome) :
    Config.run_worker_task_queue s = none
    ∧ Config.client_connect_address s = none
    ∧ Config.client_connect_namespace s = none
    ∧ (Config.Settings.getattr s "openai_api_key").isSome = true
    ∧ (Config.Settings.getattr s "openai_model").isSome = true
    ∧ (Config.Settings.getattr s "openai_timeout").isSome = true
    ∧ ((Router.handleAnalyze body request_id connect start).2.all
        fun c => c.task_queue == "research-task-queue") = true := by
  refine ⟨rfl, rfl, rfl, rfl, rfl, rfl, ?_⟩
  by_cases hv : body.valid = true
  · cases connect with
    | error e => simp [Router.handleAnalyze, Router.analyze_role, hv]
    | ok u =>
        rcases hstart : start ⟨"research-" ++ request_id, "research-task-queue",
            ⟨body.job_title, body.job_url⟩⟩ with _ | msg <;>
          simp [Router.handleAnalyze, Router.analyze_role, hv, hstart]
  · simp [Router.handleAnalyze, hv]

/-- C10: submit_edits never returns not-found: for every run_id it creates a fresh state
when absent, appends the submitted edits and sets the status to "validating"; whereas
resolve_suggestions, approve and the status query each return a 404 not-found error when
the run_id is absent, and otherwise resolve_suggestions sets the status to "processing"
and approve sets it to "approved". -/
theorem workflow_router_unknown_run_asymmetry {Edit : Type}
    (states : WorkflowRouter.Store Edit)
    (se : WorkflowRouter.SubmitEditsRequest Edit)
    (rs : WorkflowRouter.ResolveSuggestionsRequest)
    (ap : WorkflowRouter.ApproveRequest) (rid : String)
    (st : WorkflowRouter.WFState Edit) :
    ((WorkflowRouter.submit_edits states se).1 =
      .ok { success := true, run_id := se.run_id, status := "validating",
            message := "Edits submitted for validation" })
    ∧ (states se.run_id = none →
        (WorkflowRouter.submit_edits states se).2 se.run_id =
          some { status := "validating", edits := se.edits, suggestions_resolved := [] })
    ∧ (states se.run_id = some st →
        (WorkflowRouter.submit_edits states se).2 se.run_id =
          some { st with edits := st.edits ++ se.edits, status := "validating" })
    ∧ (states rs.run_id = none →
        WorkflowRouter.resolve_suggestions states rs =
          (.error ⟨404, "Workflow run not found"⟩, states))
    ∧ (states rs.run_id = some st →
        ((WorkflowRouter.resolve_suggestions states rs).1 =
          .ok { success := true, run_id := rs.run_id,
                resolved_count := rs.suggestion_ids.length,
                message := "Suggestions resolved" }
        ∧ (WorkflowRouter.resolve_suggestions states rs).2 rs.run_id =
          some { st with
                   status := "processing"
                   suggestions_resolved := st.suggestions_resolved ++ rs.suggestion_ids }))
    ∧ (states ap.run_id = none →
        WorkflowRouter.approve states ap = (.error ⟨404, "Workflow run not found"⟩, states))
    ∧ (states ap.run_id = some st →
        (WorkflowRouter.approve states ap).2 ap.run_id =
          some { st with status := "approved" })
    ∧ (states rid = none →
        WorkflowRouter.get_status states rid = .error ⟨404, "Workflow run not found"⟩) := by
  refine ⟨rfl, ?_, ?_, ?_, ?_, ?_, ?_, ?_⟩
  · intro h
    simp [WorkflowRouter.submit_edits, h]
  · intro h
    simp [WorkflowRouter.submit_edits, h]
  · intro h
    simp [WorkflowRouter.resolve_suggestions, h]
  · intro h
    simp [WorkflowRouter.resolve_suggestions, h]
  · intro h
    simp [WorkflowRouter.approve, h]
  · intro h
    simp [WorkflowRouter.approve, h]
  · intro h
    simp [WorkflowRouter.get_status, h]

/-- Witness for workflow_router_unknown_run_asymmetry at a one-entry concrete store. -/
theorem workflow_router_unknown_run_witness :
    ((fun k => if k = "r1" then
        some ({ status := "waiting", edits := ["e0"], suggestions_resolved := []} :
          WorkflowRouter.WFState String)
      else none) "r1" =
        some { status := "waiting", edits := ["e0"], suggestions_resolved := [] })
    ∧ ((fun k => if k = "r1" then
        some ({ status := "waiting", edits := ["e0"], suggestions_resolved := [] } :
          WorkflowRouter.WFState String)
      else none) "r2" = none)
    ∧ ((WorkflowRouter.submit_edits
          (fun k => if k = "r1" then
            some { status := "waiting", edits := ["e0"], suggestions_resolved := [] }
          else none)
          ({ run_id := "r2", edits := ["e1"] } :
            WorkflowRouter.SubmitEditsRequest String)).2 "r2" =
        some { status := "validating", edits := ["e1"], suggestions_resolved := [] })
    ∧ (WorkflowRouter.get_status
        (fun k => if k = "r1" then
          some ({ status := "waiting", edits := ["e0"], suggestions_resolved := [] } :
            WorkflowRouter.WFState String)
        else none) "r2" = .error ⟨404, "Workflow run not found"⟩) :=
  ⟨rfl, rfl,
    (workflow_router_unknown_run_asymmetry
      (fun k => if k = "r1" then
        some { status := "waiting", edits := ["e0"], suggestions_resolved := [] }
      else none)
      { run_id := "r2", edits := ["e1"] } { run_id := "r2", suggestion_ids := [] }
      { run_id := "r2" } "r2"
      { status := "waiting", edits := ["e0"], suggestions_resolved := [] }).2.1 rfl,
    (workflow_router_unknown_run_asymmetry
      (fun k => if k = "r1" then
        some { status := "waiting", edits := ["e0"], suggestions_resolved := [] }
      else none)
      { run_id := "r2", edits := ["e1"] } { run_id := "r2", suggestion_ids := [] }
      { run_id := "r2" } "r2"
      { status := "waiting", edits := ["e0"], suggestions_resolved := [] }).2.2.2.2.2.2.2 rfl⟩

/-- C9: the PII scrubber is idempotent at the default replacement
"[REDACTED]": applying scrub_pii twice yields the same string as applying
it once — a single pass leaves no residual email, phone, SSN or
credit-card occurrence for a second pass to redact, and redaction
introduces no new occurrence. -/
theorem scrub_pii_idempotent (text : String) :
    Privacy.scrub_pii_str (Privacy.scrub_pii_str text) = Privacy.scrub_pii_str text := by
  unfold Privacy.scrub_pii_str
  rw [show (Privacy.scrub_pii text.toList).asString.toList =
      Privacy.scrub_pii text.toList from rfl]
  rw [Privacy.scrub_pii_idem_list]

end TalentPromo
